import Mathlib

/-!
The function hb_uniscribe_shape: the adaptation layer around the Uniscribe service.

A shallow embedding of `src/hb-uniscribe-shape.cc`.

* C arrays carved out of the scratch region, and the buffer's `info` and `pos`
  arrays, are maps from an index to an element (`Nat → α`); as in the C source,
  no access is bounds checked.
* `unsigned int` byte counts are natural numbers reduced modulo `2 ^ 32` where the
  source subtracts or adds them.
  Item counts and `chars_len` are plain natural numbers: the encoder adds at most
  two per item, and the items of a buffer fit its 32-bit byte count many times over.
* The external Uniscribe calls, the font and the buffer's storage primitives are
  fields of the record `Env`; the calls are functions of their arguments.
* The `goto` structure of the function is an explicit program counter.
-/

namespace Uniscribe

/-! ## Memory maps -/

/-- Store `v` at index `i` of an array. -/
def upd {α : Type} (f : Nat → α) (i : Nat) (v : α) : Nat → α :=
  fun j => if j = i then v else f j

/-- Store the elements of `xs` at consecutive indices starting at `off`. -/
def write {α : Type} (f : Nat → α) (off : Nat) : List α → Nat → α
  | [] => f
  | x :: xs => write (upd f off x) (off + 1) xs

/-- Load `n` consecutive elements starting at `off`. -/
def read {α : Type} (f : Nat → α) (off n : Nat) : List α :=
  (List.range n).map (fun k => f (off + k))

/-! ## Buffer data model (`hb-buffer-private.hh`) -/

/-- The record hb_glyph_info_t; `var1` is `var1.u32`, which the source aliases as
`utf16_index()`. -/
structure hb_glyph_info_t where
  codepoint : Nat
  mask : Nat
  cluster : Nat
  var1 : Nat
  var2 : Nat
deriving DecidableEq, Repr

/-- The record hb_glyph_position_t. -/
structure hb_glyph_position_t where
  x_advance : Int
  y_advance : Int
  x_offset : Int
  y_offset : Int
  var : Nat
deriving DecidableEq, Repr

/-- The fields of hb_buffer_t that `hb_uniscribe_shape` touches. `forward` is
`HB_DIRECTION_IS_FORWARD (props.direction)`. -/
structure hb_buffer_t where
  len : Nat
  allocated : Nat
  in_error : Bool
  forward : Bool
  info : Nat → hb_glyph_info_t
  pos : Nat → hb_glyph_position_t

/-! ## Wide-Encoder (source lines 108-121) -/

/-- The 16-bit units stored for one codepoint `c` by the body of the encoding loop.
Every store into `pchars` truncates to a `WCHAR`, hence `% 65536`. -/
def encode_units (c : Nat) : List Nat :=
  if c < 0x10000 then [c % 65536]
  else if c ≥ 0x110000 then [0xFFFD % 65536]
  else [(0xD800 + ((c - 0x10000) >>> 10)) % 65536,
        (0xDC00 + ((c - 0x10000) &&& ((1 <<< 10) - 1))) % 65536]

/-- Loop state of the encoder: the annotated items, the unit array and `chars_len`. -/
structure EncState where
  info : Nat → hb_glyph_info_t
  pchars : Nat → Nat
  chars_len : Nat

/-- One iteration of `for (i = 0; i < buffer->len; i++)` at index `i`. -/
def encode_step (s : EncState) (i : Nat) : EncState :=
  let c := (s.info i).codepoint
  { info := upd s.info i { s.info i with var1 := s.chars_len }
    pchars := write s.pchars s.chars_len (encode_units c)
    chars_len := s.chars_len + (encode_units c).length }

/-- The whole encoding loop over `len` items, starting with `chars_len = 0`. -/
def wide_encode (len : Nat) (info : Nat → hb_glyph_info_t) (pchars : Nat → Nat) : EncState :=
  (List.range len).foldl encode_step { info := info, pchars := pchars, chars_len := 0 }

/-- The units one iteration of the encoding loop appends: the content of `pchars`
between the old and the new `chars_len`. -/
def emitted (s : EncState) (i : Nat) : List Nat :=
  read (encode_step s i).pchars s.chars_len ((encode_step s i).chars_len - s.chars_len)

/-- Decoding of a surrogate pair, in the words of the specification:
`0x10000 + ((hi - 0xD800) << 10) + (lo - 0xDC00)`. -/
def spec_decode_pair (hi lo : Nat) : Nat :=
  0x10000 + ((hi - 0xD800) <<< 10) + (lo - 0xDC00)

/-- Number of units of a codepoint in the words of the specification: two for a
codepoint in `[0x10000, 0x110000)`, one otherwise. -/
def spec_unit_count (c : Nat) : Nat :=
  if 0x10000 ≤ c ∧ c < 0x110000 then 2 else 1

/-- Sum of the specification's unit counts of items `0 .. i-1`. -/
def spec_units_before (info : Nat → hb_glyph_info_t) : Nat → Nat
  | 0 => 0
  | i + 1 => spec_units_before info i + spec_unit_count (info i).codepoint

/-! ## Scratch Partitioner (source lines 96-138) -/

/-- The cursor into the scratch region: `scratch` is the byte offset of the pointer
from the start of the region, `scratch_size` the `unsigned int` count of bytes left. -/
structure Cursor where
  scratch : Nat
  scratch_size : Nat
deriving DecidableEq, Repr

/-- The macro ALLOCATE_ARRAY for an element size `elt` and `len` elements:
`scratch += len * sizeof (name[0]); scratch_size -= len * sizeof (name[0]);`
The subtraction is an `unsigned int` subtraction and wraps modulo `2 ^ 32`. The new
array starts at the old `scratch`. -/
def ALLOCATE_ARRAY (elt len : Nat) (s : Cursor) : Cursor :=
  { scratch := s.scratch + len * elt
    scratch_size := (s.scratch_size + 2 ^ 32 - (len * elt) % 2 ^ 32) % 2 ^ 32 }

/-- Windows element size `sizeof (WCHAR)`. -/
def sizeof_WCHAR : Nat := 2
/-- Windows element size `sizeof (WORD)`. -/
def sizeof_WORD : Nat := 2
/-- Windows element size `sizeof (SCRIPT_CHARPROP)`. -/
def sizeof_SCRIPT_CHARPROP : Nat := 2
/-- Windows element size `sizeof (SCRIPT_GLYPHPROP)`. -/
def sizeof_SCRIPT_GLYPHPROP : Nat := 4
/-- Windows element size `sizeof (int)`. -/
def sizeof_int : Nat := 4
/-- Windows element size `sizeof (GOFFSET)`. -/
def sizeof_GOFFSET : Nat := 8
/-- Element size `sizeof (uint32_t)`. -/
def sizeof_uint32_t : Nat := 4

/-- The eight arrays carved out of the scratch region: the byte offset at which each
starts, the glyph-slot count, and the cursor left after the last allocation. -/
structure Partition where
  wchars : Nat
  log_clusters : Nat
  char_props : Nat
  glyphs_size : Nat
  glyphs : Nat
  glyph_props : Nat
  advances : Nat
  offsets : Nat
  vis_clusters : Nat
  rest : Cursor
deriving DecidableEq, Repr

/-- The allocation sequence of lines 123-138 for a scratch region of `scratch_size`
bytes and `chars_len` encoded units. -/
def partition (scratch_size chars_len : Nat) : Partition :=
  let c0 : Cursor := { scratch := 0, scratch_size := scratch_size }
  let c1 := ALLOCATE_ARRAY sizeof_WCHAR chars_len c0
  let c2 := ALLOCATE_ARRAY sizeof_WORD chars_len c1
  let c3 := ALLOCATE_ARRAY sizeof_SCRIPT_CHARPROP chars_len c2
  let glyphs_size := c3.scratch_size / (sizeof_WORD + sizeof_SCRIPT_GLYPHPROP + sizeof_int +
    sizeof_GOFFSET + sizeof_uint32_t)
  let c4 := ALLOCATE_ARRAY sizeof_WORD glyphs_size c3
  let c5 := ALLOCATE_ARRAY sizeof_SCRIPT_GLYPHPROP glyphs_size c4
  let c6 := ALLOCATE_ARRAY sizeof_int glyphs_size c5
  let c7 := ALLOCATE_ARRAY sizeof_GOFFSET glyphs_size c6
  let c8 := ALLOCATE_ARRAY sizeof_uint32_t glyphs_size c7
  { wchars := c0.scratch, log_clusters := c1.scratch, char_props := c2.scratch
    glyphs_size := glyphs_size
    glyphs := c3.scratch, glyph_props := c4.scratch, advances := c5.scratch
    offsets := c6.scratch, vis_clusters := c7.scratch, rest := c8 }

/-- The eight regions of a partition in carving order, each as its first byte offset
and its length in bytes. -/
def Partition.regions (p : Partition) (chars_len : Nat) : List (Nat × Nat) :=
  [ (p.wchars, chars_len * sizeof_WCHAR),
    (p.log_clusters, chars_len * sizeof_WORD),
    (p.char_props, chars_len * sizeof_SCRIPT_CHARPROP),
    (p.glyphs, p.glyphs_size * sizeof_WORD),
    (p.glyph_props, p.glyphs_size * sizeof_SCRIPT_GLYPHPROP),
    (p.advances, p.glyphs_size * sizeof_int),
    (p.offsets, p.glyphs_size * sizeof_GOFFSET),
    (p.vis_clusters, p.glyphs_size * sizeof_uint32_t) ]

/-- Two byte ranges, each given by start and length, share no byte. -/
def disjoint_ranges (a b : Nat × Nat) : Prop :=
  a.1 + a.2 ≤ b.1 ∨ b.1 + b.2 ≤ a.1

/-- A byte range lies inside a region of `S` bytes starting at offset zero. -/
def range_within (S : Nat) (a : Nat × Nat) : Prop :=
  a.1 + a.2 ≤ S

/-! ## The external service (`usp10.h`) and the environment of a call -/

/-- The result codes the source tells apart: success, `E_OUTOFMEMORY`, and any other
failure. -/
inductive HRESULT
  | S_OK
  | E_OUTOFMEMORY
  | E_FAIL
deriving DecidableEq, Repr

/-- The test `FAILED (hr)`. -/
def FAILED : HRESULT → Bool
  | HRESULT.S_OK => false
  | _ => true

/-- A run boundary: `iCharPos` and the script analysis `a`, kept abstract. -/
structure SCRIPT_ITEM where
  iCharPos : Nat
  a : Nat
deriving DecidableEq, Repr

/-- The glyph property record; only `sva.fClusterStart` is read by the caller. -/
structure SCRIPT_GLYPHPROP where
  fClusterStart : Bool
  rest : Nat
deriving DecidableEq, Repr

/-- The glyph offset record GOFFSET. -/
structure GOFFSET where
  du : Int
  dv : Int
deriving DecidableEq, Repr

/-- What ScriptItemizeOpenType hands back: `items` holds `item_count + 1` entries, the
last one being the sentinel. -/
structure ItemizeResult where
  hr : HRESULT
  items : List SCRIPT_ITEM
  script_tags : List Nat
  item_count : Nat

/-- What ScriptShapeOpenType hands back for one run. The lists are the elements it
stores at the four output pointers; `fNoGlyphIndex` is the flag it sets in the
run's analysis. -/
structure ShapeResult where
  hr : HRESULT
  fNoGlyphIndex : Bool
  log_clusters : List Nat
  char_props : List Nat
  glyphs : List Nat
  glyph_props : List SCRIPT_GLYPHPROP
  glyphs_len : Nat

/-- What ScriptPlaceOpenType hands back for one run. -/
structure PlaceResult where
  hr : HRESULT
  advances : List Int
  offsets : List GOFFSET

/-- The arrays that live in the scratch region. -/
structure Arrays where
  wchars : Nat → Nat
  log_clusters : Nat → Nat
  char_props : Nat → Nat
  glyphs : Nat → Nat
  glyph_props : Nat → SCRIPT_GLYPHPROP
  advances : Nat → Int
  offsets : Nat → GOFFSET
  vis_clusters : Nat → Nat

/-- Everything outside the function that a call depends on: the deterministic
Uniscribe service, the font, and the buffer's storage primitives.

* `scratch` is the content of the scratch region when an attempt starts; the
  source never initialises it.
* `scratch_bytes allocated` is the byte count `get_scratch_buffer` reports.
* `enlarge allocated size` is the growth primitive behind `ensure`: the new
  allocation, or `none` when storage cannot be obtained. -/
structure Env where
  ScriptItemizeOpenType : List Nat → Nat → Nat → ItemizeResult
  ScriptShapeOpenType : Nat → Nat → Nat → List Nat → Nat → ShapeResult
  ScriptPlaceOpenType : Nat → Nat → Nat → List Nat → List Nat → List Nat → List Nat →
    List SCRIPT_GLYPHPROP → PlaceResult
  language_tag : Nat
  blob_length : Nat
  AddFontMemResourceEx : Bool
  scratch : Arrays
  scratch_bytes : Nat → Nat
  enlarge : Nat → Nat → Option Nat

/-- The external calls and buffer requests a call makes, in order. -/
inductive Event
  | fallback_shape
  | ScriptItemizeOpenType (chars_len : Nat)
  | AddFontMemResourceEx
  | ScriptShapeOpenType (run : Nat)
  | ScriptPlaceOpenType (run : Nat)
  | ensure (size : Nat)
deriving DecidableEq, Repr

/-- Modelled from the spec: `hb_buffer_t::ensure` is declared in
`hb-buffer-private.hh`, which is not part of the source here. The specification
describes it as `EnsureCapacity(n) → success|fail`: it makes room for `size` items,
and reports failure through the buffer's error flag. It neither reads nor writes
the item count `len`. -/
def ensure (env : Env) (b : hb_buffer_t) (size : Nat) : hb_buffer_t :=
  if size ≤ b.allocated then b
  else match env.enlarge b.allocated size with
    | some a => { b with allocated := a }
    | none => { b with in_error := true }

/-- Modelled from the spec: `hb_buffer_t::clear_positions` is declared in
`hb-buffer-private.hh`, which is not part of the source here; it resets every
position record to zero. -/
def clear_positions (b : hb_buffer_t) : hb_buffer_t :=
  { b with pos := fun _ => { x_advance := 0, y_advance := 0, x_offset := 0, y_offset := 0, var := 0 } }

/-- Difference of two `unsigned int` values. -/
def sub32 (a b : Nat) : Nat := (a + 2 ^ 32 - b % 2 ^ 32) % 2 ^ 32

/-- Sum of two `unsigned int` values. -/
def add32 (a b : Nat) : Nat := (a + b) % 2 ^ 32

/-- Conversion of a signed 32-bit value to `uint32_t`. -/
def toU32 (x : Int) : Nat := (x % 2 ^ 32).toNat

/-- Conversion of a `uint32_t` value to a signed 32-bit value. -/
def toI32 (n : Nat) : Int :=
  if n % 2 ^ 32 < 2 ^ 31 then ((n % 2 ^ 32 : Nat) : Int) else ((n % 2 ^ 32 : Nat) : Int) - 2 ^ 32

/-! ## Run Shaper/Placer (source lines 206-268) -/

/-- Loop state of the run loop. -/
structure LoopState where
  arrays : Arrays
  glyphs_offset : Nat
  trace : List Event

/-- How the run loop is left: by `FALLBACK`, by the `E_OUTOFMEMORY` branch, or by
running off its end. -/
inductive LoopResult
  | fallback (trace : List Event)
  | out_of_memory (trace : List Event)
  | completed (s : LoopState)

/-- One iteration of the run loop, for run `i`. -/
def shape_run (env : Env) (items : List SCRIPT_ITEM) (script_tags : List Nat)
    (glyphs_size : Nat) (s : LoopState) (i : Nat) : LoopResult :=
  let item := items.getD i { iCharPos := 0, a := 0 }
  let next := items.getD (i + 1) { iCharPos := 0, a := 0 }
  let chars_offset := item.iCharPos
  let item_chars_len := sub32 next.iCharPos chars_offset
  let script_tag := script_tags.getD i 0
  let r := env.ScriptShapeOpenType item.a script_tag env.language_tag
    (read s.arrays.wchars chars_offset item_chars_len) (sub32 glyphs_size s.glyphs_offset)
  let tr := s.trace ++ [Event.ScriptShapeOpenType i]
  let a1 : Arrays :=
    { s.arrays with
      log_clusters := write s.arrays.log_clusters chars_offset r.log_clusters
      char_props := write s.arrays.char_props chars_offset r.char_props
      glyphs := write s.arrays.glyphs s.glyphs_offset r.glyphs
      glyph_props := write s.arrays.glyph_props s.glyphs_offset r.glyph_props }
  if r.fNoGlyphIndex then LoopResult.fallback tr
  else if r.hr = HRESULT.E_OUTOFMEMORY then LoopResult.out_of_memory tr
  else if FAILED r.hr then LoopResult.fallback tr
  else
    let p := env.ScriptPlaceOpenType item.a script_tag env.language_tag
      (read a1.wchars chars_offset item_chars_len)
      (read a1.log_clusters chars_offset item_chars_len)
      (read a1.char_props chars_offset item_chars_len)
      (read a1.glyphs s.glyphs_offset r.glyphs_len)
      (read a1.glyph_props s.glyphs_offset r.glyphs_len)
    let tr2 := tr ++ [Event.ScriptPlaceOpenType i]
    if FAILED p.hr then LoopResult.fallback tr2
    else LoopResult.completed
      { arrays :=
          { a1 with
            advances := write a1.advances s.glyphs_offset p.advances
            offsets := write a1.offsets s.glyphs_offset p.offsets }
        glyphs_offset := add32 s.glyphs_offset r.glyphs_len
        trace := tr2 }

/-- The run loop over the run indices still to be processed. -/
def shape_loop (env : Env) (items : List SCRIPT_ITEM) (script_tags : List Nat)
    (glyphs_size : Nat) : List Nat → LoopState → LoopResult
  | [], s => LoopResult.completed s
  | i :: rest, s =>
    match shape_run env items script_tags glyphs_size s i with
    | LoopResult.completed s1 => shape_loop env items script_tags glyphs_size rest s1
    | r => r

/-! ## Cluster Remapper (source lines 277-282) -/

/-- First pass: `vis_clusters[log_clusters[info[i].utf16_index()]] = info[i].cluster`
for `i = 0 .. len-1`. -/
def calc_vis_pass1 (len : Nat) (info : Nat → hb_glyph_info_t) (log_clusters : Nat → Nat)
    (vis_clusters : Nat → Nat) : Nat → Nat :=
  (List.range len).foldl
    (fun vis i => upd vis (log_clusters (info i).var1) (info i).cluster) vis_clusters

/-- Second pass: `if (!glyph_props[i].sva.fClusterStart) vis_clusters[i] =
vis_clusters[i - 1]` for `i = 1 .. glyphs_len-1`. -/
def calc_vis_pass2 (glyphs_len : Nat) (glyph_props : Nat → SCRIPT_GLYPHPROP)
    (vis_clusters : Nat → Nat) : Nat → Nat :=
  (List.range' 1 (glyphs_len - 1)).foldl
    (fun vis i => if !(glyph_props i).fClusterStart then upd vis i (vis (i - 1)) else vis)
    vis_clusters

/-- Both passes of "Calculate visual-clusters". -/
def calc_vis_clusters (len : Nat) (info : Nat → hb_glyph_info_t) (log_clusters : Nat → Nat)
    (glyphs_len : Nat) (glyph_props : Nat → SCRIPT_GLYPHPROP) (vis_clusters : Nat → Nat) :
    Nat → Nat :=
  calc_vis_pass2 glyphs_len glyph_props (calc_vis_pass1 len info log_clusters vis_clusters)

/-! ## Output assembly (source lines 286-317) -/

/-- The loop "Set glyph infos". -/
def set_glyph_infos (glyphs_len : Nat) (a : Arrays) (info : Nat → hb_glyph_info_t) :
    Nat → hb_glyph_info_t :=
  (List.range glyphs_len).foldl
    (fun inf i => upd inf i
      { inf i with
        codepoint := a.glyphs i
        cluster := a.vis_clusters i
        mask := toU32 (a.advances i)
        var1 := toU32 (a.offsets i).du
        var2 := toU32 (a.offsets i).dv })
    info

/-- The loop "Set glyph positions". -/
def set_glyph_positions (glyphs_len : Nat) (info : Nat → hb_glyph_info_t)
    (pos : Nat → hb_glyph_position_t) : Nat → hb_glyph_position_t :=
  (List.range glyphs_len).foldl
    (fun ps i => upd ps i
      { ps i with
        x_advance := toI32 (info i).mask
        x_offset := toI32 (info i).var1
        y_offset := toI32 (info i).var2 })
    pos

/-- Lines 292-317: write the glyphs into `info`, clear the positions, fill `pos`.
No statement of the source assigns `buffer->len`. -/
def write_back (glyphs_len : Nat) (a : Arrays) (b : hb_buffer_t) : hb_buffer_t :=
  let b1 := { b with info := set_glyph_infos glyphs_len a b.info }
  let b2 := clear_positions b1
  { b2 with pos := set_glyph_positions glyphs_len b2.info b2.pos }

/-! ## The body between `retry:` and `return` -/

/-- Where control goes when the body is left. -/
inductive Outcome
  | fallback
  | retry
  | done
deriving DecidableEq, Repr

/-- The result of one pass through the body. -/
structure AttemptResult where
  outcome : Outcome
  buffer : hb_buffer_t
  trace : List Event

/-- The visual clusters computed from the arrays the run loop left behind. -/
def remapped (b : hb_buffer_t) (s : LoopState) : Arrays :=
  { s.arrays with
    vis_clusters := calc_vis_clusters b.len b.info s.arrays.log_clusters s.glyphs_offset
      s.arrays.glyph_props s.arrays.vis_clusters }

/-- What follows the run loop. After `FALLBACK`: `goto fallback`. In the
`E_OUTOFMEMORY` branch (lines 234-240): grow the buffer to twice its allocation, then
`goto retry`, or `FALLBACK` when the buffer is in error. After the last run (lines
268-320): remap the clusters, size the buffer to the glyph count, write the glyphs
back and return, or `FALLBACK` when the buffer is in error. -/
def after_loop (env : Env) (b0 : hb_buffer_t) : LoopResult → AttemptResult
  | LoopResult.fallback tr1 => { outcome := Outcome.fallback, buffer := b0, trace := tr1 }
  | LoopResult.out_of_memory tr1 =>
    let size := (b0.allocated * 2) % 2 ^ 32
    let b1 := ensure env b0 size
    if b1.in_error then
      { outcome := Outcome.fallback, buffer := b1, trace := tr1 ++ [Event.ensure size] }
    else { outcome := Outcome.retry, buffer := b1, trace := tr1 ++ [Event.ensure size] }
  | LoopResult.completed s =>
    let glyphs_len := s.glyphs_offset
    let a := remapped b0 s
    let b2 := ensure env b0 glyphs_len
    if b2.in_error then
      { outcome := Outcome.fallback, buffer := b2, trace := s.trace ++ [Event.ensure glyphs_len] }
    else
      { outcome := Outcome.done, buffer := write_back glyphs_len a b2
        trace := s.trace ++ [Event.ensure glyphs_len] }

/-- Lines 123-320, after the encoding loop: partition the scratch region, itemize,
load the font, shape and place every run, and what follows the run loop. `b0` is the
buffer with the items annotated by the encoder, `pchars` and `chars_len` are the
encoded units. -/
def shape_encoded (env : Env) (b0 : hb_buffer_t) (pchars : Nat → Nat) (chars_len : Nat) :
    AttemptResult :=
  let p := partition (env.scratch_bytes b0.allocated) chars_len
  let it := env.ScriptItemizeOpenType (read pchars 0 chars_len) 10
    (if b0.forward then 0 else 1)
  let tr := [Event.ScriptItemizeOpenType chars_len]
  if FAILED it.hr then { outcome := Outcome.fallback, buffer := b0, trace := tr }
  else if env.blob_length = 0 then { outcome := Outcome.fallback, buffer := b0, trace := tr }
  else if !env.AddFontMemResourceEx then
    { outcome := Outcome.fallback, buffer := b0, trace := tr ++ [Event.AddFontMemResourceEx] }
  else
    after_loop env b0
      (shape_loop env it.items it.script_tags p.glyphs_size (List.range it.item_count)
        { arrays := { env.scratch with wchars := pchars }
          glyphs_offset := 0
          trace := tr ++ [Event.AddFontMemResourceEx] })

/-- One pass through lines 94-320, from the label `retry:` on: the encoding loop,
which annotates the items of the buffer, followed by the rest of the body. -/
def attempt (env : Env) (b : hb_buffer_t) : AttemptResult :=
  let enc := wide_encode b.len b.info env.scratch.wchars
  shape_encoded env { b with info := enc.info } enc.pchars enc.chars_len

/-! ## Control flow of `hb_uniscribe_shape` -/

/-- The places control can be at: the function entry, the label `fallback:`, the
label `retry:`, and after `return`. -/
inductive PC
  | entry
  | fallback
  | retry
  | done
deriving DecidableEq, Repr

/-- The state of a call. -/
structure Machine where
  pc : PC
  buffer : hb_buffer_t
  trace : List Event

/-- The function fallback_shape only emits a debug message; the buffer is untouched. -/
def fallback_shape (b : hb_buffer_t) : hb_buffer_t := b

/-- One move of control.
* At the entry, `if (!buffer->len)` jumps into the block holding `fallback:`.
* At `fallback:`, `fallback_shape` runs; the block then ends, and control falls
  through to `retry:`, the next statement.
* At `retry:`, the body runs once and leaves by `goto fallback`, `goto retry` or
  `return`. -/
def step (env : Env) (m : Machine) : Machine :=
  match m.pc with
  | PC.entry =>
    if m.buffer.len = 0 then { m with pc := PC.fallback } else { m with pc := PC.retry }
  | PC.fallback =>
    { pc := PC.retry, buffer := fallback_shape m.buffer
      trace := m.trace ++ [Event.fallback_shape] }
  | PC.retry =>
    let r := attempt env m.buffer
    { pc := match r.outcome with
        | Outcome.fallback => PC.fallback
        | Outcome.retry => PC.retry
        | Outcome.done => PC.done
      buffer := r.buffer
      trace := m.trace ++ r.trace }
  | PC.done => m

/-- The state reached after `n` moves. -/
def exec (env : Env) : Nat → Machine → Machine
  | 0, m => m
  | n + 1, m => exec env n (step env m)

/-- The state in which a call starts. -/
def start (b : hb_buffer_t) : Machine :=
  { pc := PC.entry, buffer := b, trace := [] }

/-- The function hb_uniscribe_shape run for at most `fuel` moves: the buffer it
returns with, or `none` when it has not returned by then. -/
def hb_uniscribe_shape (env : Env) (fuel : Nat) (b : hb_buffer_t) : Option hb_buffer_t :=
  let m := exec env fuel (start b)
  if m.pc = PC.done then some m.buffer else none

/-! ## Concrete data -/

/-- An item array given by its first elements; the rest is zero. -/
def info_of (xs : List hb_glyph_info_t) : Nat → hb_glyph_info_t :=
  fun i => xs.getD i { codepoint := 0, mask := 0, cluster := 0, var1 := 0, var2 := 0 }

/-- An array of numbers given by its first elements; the rest is zero. -/
def array_of (xs : List Nat) : Nat → Nat :=
  fun i => xs.getD i 0

/-- A glyph property array given by the cluster-start flags of its first elements. -/
def props_of (xs : List Bool) : Nat → SCRIPT_GLYPHPROP :=
  fun i => { fClusterStart := xs.getD i false, rest := 0 }

/-- Two encoded items, U+0041 with cluster 0 at unit 0 and U+0042 with cluster 1 at
unit 1. -/
def merged_info : Nat → hb_glyph_info_t :=
  info_of [{ codepoint := 0x41, mask := 0, cluster := 0, var1 := 0, var2 := 0 },
           { codepoint := 0x42, mask := 0, cluster := 1, var1 := 1, var2 := 0 }]

/-- Three encoded items, clusters 0, 1, 2 at units 0, 1, 2. -/
def three_info : Nat → hb_glyph_info_t :=
  info_of [{ codepoint := 0x41, mask := 0, cluster := 0, var1 := 0, var2 := 0 },
           { codepoint := 0x42, mask := 0, cluster := 1, var1 := 1, var2 := 0 },
           { codepoint := 0x43, mask := 0, cluster := 2, var1 := 2, var2 := 0 }]

/-- Two items before encoding: U+0041 with cluster 0 and U+1F600 with cluster 1. -/
def letter_and_face : Nat → hb_glyph_info_t :=
  info_of [{ codepoint := 0x41, mask := 0, cluster := 0, var1 := 0, var2 := 0 },
           { codepoint := 0x1F600, mask := 0, cluster := 1, var1 := 0, var2 := 0 }]

/-- A buffer holding the given items, with room for `allocated` items. -/
def buffer_of (xs : List hb_glyph_info_t) (allocated : Nat) : hb_buffer_t :=
  { len := xs.length, allocated := allocated, in_error := false, forward := true
    info := info_of xs
    pos := fun _ => { x_advance := 0, y_advance := 0, x_offset := 0, y_offset := 0, var := 0 } }

/-- An input item with the given codepoint and cluster id. -/
def item (codepoint cluster : Nat) : hb_glyph_info_t :=
  { codepoint := codepoint, mask := 0, cluster := cluster, var1 := 0, var2 := 0 }

/-- An itemizer that fails on an empty text and otherwise returns a single run
covering the whole text. -/
def itemize_one_run (chars : List Nat) : ItemizeResult :=
  if chars.length = 0 then
    { hr := HRESULT.E_FAIL, items := [], script_tags := [], item_count := 0 }
  else
    { hr := HRESULT.S_OK
      items := [{ iCharPos := 0, a := 0 }, { iCharPos := chars.length, a := 0 }]
      script_tags := [0], item_count := 1 }

/-- An itemizer that fails on an empty text and otherwise makes every unit a run of
its own. -/
def itemize_run_per_unit (chars : List Nat) : ItemizeResult :=
  if chars.length = 0 then
    { hr := HRESULT.E_FAIL, items := [], script_tags := [], item_count := 0 }
  else
    { hr := HRESULT.S_OK
      items := (List.range (chars.length + 1)).map (fun k => { iCharPos := k, a := 0 })
      script_tags := chars.map (fun _ => 0), item_count := chars.length }

/-- A shape operation that gives every unit one glyph, the glyph id being the unit,
each glyph starting a cluster; the logical cluster of unit `k` of the run is the
run-local glyph index `k`. It reports `E_OUTOFMEMORY` when the run needs more glyph
slots than `cMaxGlyphs`. -/
def shape_glyph_per_unit (chars : List Nat) (cMaxGlyphs : Nat) : ShapeResult :=
  if cMaxGlyphs < chars.length then
    { hr := HRESULT.E_OUTOFMEMORY, fNoGlyphIndex := false, log_clusters := [], char_props := []
      glyphs := [], glyph_props := [], glyphs_len := 0 }
  else
    { hr := HRESULT.S_OK, fNoGlyphIndex := false
      log_clusters := List.range chars.length
      char_props := chars.map (fun _ => 0)
      glyphs := chars
      glyph_props := chars.map (fun _ => { fClusterStart := true, rest := 0 })
      glyphs_len := chars.length }

/-- A shape operation that turns the whole run into the single ligature glyph 500. -/
def shape_ligature (chars : List Nat) (cMaxGlyphs : Nat) : ShapeResult :=
  if cMaxGlyphs < 1 then
    { hr := HRESULT.E_OUTOFMEMORY, fNoGlyphIndex := false, log_clusters := [], char_props := []
      glyphs := [], glyph_props := [], glyphs_len := 0 }
  else
    { hr := HRESULT.S_OK, fNoGlyphIndex := false
      log_clusters := chars.map (fun _ => 0)
      char_props := chars.map (fun _ => 0)
      glyphs := [500]
      glyph_props := [{ fClusterStart := true, rest := 0 }]
      glyphs_len := 1 }

/-- A shape operation that always reports `E_OUTOFMEMORY`. -/
def shape_exhausted : ShapeResult :=
  { hr := HRESULT.E_OUTOFMEMORY, fNoGlyphIndex := false, log_clusters := [], char_props := []
    glyphs := [], glyph_props := [], glyphs_len := 0 }

/-- A place operation that gives every glyph the advance 600 and no offset. -/
def place_fixed (glyphs : List Nat) : PlaceResult :=
  { hr := HRESULT.S_OK
    advances := glyphs.map (fun _ => 600)
    offsets := glyphs.map (fun _ => { du := 0, dv := 0 }) }

/-- Scratch content found when an attempt starts: the visual-cluster region holds
77, 88, 99 in its first three slots, everything else is zero. -/
def stale_scratch : Arrays :=
  { wchars := array_of [], log_clusters := array_of [], char_props := array_of []
    glyphs := array_of [], glyph_props := props_of []
    advances := fun _ => 0, offsets := fun _ => { du := 0, dv := 0 }
    vis_clusters := array_of [77, 88, 99] }

/-- An environment with a working font, 20 bytes of scratch per allocated item and a
growth primitive that always succeeds; one run, one glyph per unit. -/
def env_plain : Env :=
  { ScriptItemizeOpenType := fun chars _ _ => itemize_one_run chars
    ScriptShapeOpenType := fun _ _ _ chars cap => shape_glyph_per_unit chars cap
    ScriptPlaceOpenType := fun _ _ _ _ _ _ glyphs _ => place_fixed glyphs
    language_tag := 0, blob_length := 1000, AddFontMemResourceEx := true
    scratch := stale_scratch
    scratch_bytes := fun allocated => allocated * 20
    enlarge := fun _ size => some size }

/-- The environment `env_plain` with a shape operation forming one ligature. -/
def env_ligature : Env :=
  { env_plain with ScriptShapeOpenType := fun _ _ _ chars cap => shape_ligature chars cap }

/-- The environment `env_plain` with an itemizer making every unit its own run. -/
def env_two_runs : Env :=
  { env_plain with ScriptItemizeOpenType := fun chars _ _ => itemize_run_per_unit chars }

/-- The environment `env_plain` with a shape operation that always reports
`E_OUTOFMEMORY` and a growth primitive that always fails. -/
def env_exhausted : Env :=
  { env_plain with
    ScriptShapeOpenType := fun _ _ _ _ _ => shape_exhausted
    enlarge := fun _ _ => none }

/-- The visible content of an output item: glyph id, cluster, x_advance, x_offset,
y_offset. -/
def glyph_at (b : hb_buffer_t) (i : Nat) : Nat × Nat × Int × Int × Int :=
  ((b.info i).codepoint, (b.info i).cluster, (b.pos i).x_advance, (b.pos i).x_offset,
    (b.pos i).y_offset)

/-! ## Lemmas on memory maps -/

theorem upd_same {α : Type} (f : Nat → α) (i : Nat) (v : α) : upd f i v i = v := by
  simp [upd]

theorem upd_other {α : Type} (f : Nat → α) (i j : Nat) (v : α) (h : j ≠ i) :
    upd f i v j = f j := by
  simp [upd, h]

theorem write_below {α : Type} (xs : List α) (f : Nat → α) (off j : Nat) (h : j < off) :
    write f off xs j = f j := by
  induction xs generalizing f off with
  | nil => rfl
  | cons x xs ih =>
    simp only [write]
    rw [ih _ _ (by omega), upd_other _ _ _ _ (by omega)]

theorem write_beyond {α : Type} (xs : List α) (f : Nat → α) (off j : Nat)
    (h : off + xs.length ≤ j) : write f off xs j = f j := by
  induction xs generalizing f off with
  | nil => rfl
  | cons x xs ih =>
    simp only [write]
    simp only [List.length_cons] at h
    rw [ih _ _ (by omega), upd_other _ _ _ _ (by omega)]

theorem read_zero {α : Type} (f : Nat → α) (off : Nat) : read f off 0 = [] := by
  simp [read]

theorem read_succ {α : Type} (f : Nat → α) (off n : Nat) :
    read f off (n + 1) = f off :: read f (off + 1) n := by
  simp only [read, List.range_succ_eq_map, List.map_cons, List.map_map, Nat.add_zero,
    List.cons.injEq, true_and]
  apply List.map_congr_left
  intro k _
  simp only [Function.comp, Nat.succ_eq_add_one]
  congr 1
  omega

theorem read_congr {α : Type} (f g : Nat → α) (off n : Nat)
    (h : ∀ k, k < n → f (off + k) = g (off + k)) : read f off n = read g off n := by
  simp only [read]
  apply List.map_congr_left
  intro k hk
  exact h k (List.mem_range.mp hk)

theorem read_write_self {α : Type} (xs : List α) (f : Nat → α) (off : Nat) :
    read (write f off xs) off xs.length = xs := by
  induction xs generalizing f off with
  | nil => simp [read]
  | cons x xs ih =>
    simp only [List.length_cons, read_succ, write]
    rw [ih, write_below _ _ _ _ (by omega), upd_same]

/-! ## Wide-Encoder -/

theorem shr10 (x : Nat) : x >>> 10 = x / 1024 := by
  rw [Nat.shiftRight_eq_div_pow]

theorem and3FF (x : Nat) : x &&& ((1 <<< 10) - 1) = x % 1024 := by
  have h : ((1 <<< 10) - 1 : Nat) = 2 ^ 10 - 1 := by decide
  rw [h, Nat.and_pow_two_sub_one_eq_mod]

theorem encode_units_length (c : Nat) : (encode_units c).length = spec_unit_count c := by
  unfold encode_units spec_unit_count
  by_cases h1 : c < 0x10000
  · have : ¬ (0x10000 ≤ c ∧ c < 0x110000) := by omega
    simp [h1, this]
  · by_cases h2 : c ≥ 0x110000
    · have : ¬ (0x10000 ≤ c ∧ c < 0x110000) := by omega
      simp [h1, h2, this]
    · have : (0x10000 ≤ c ∧ c < 0x110000) := by omega
      simp [h1, h2, this]

theorem emitted_eq (s : EncState) (i : Nat) :
    emitted s i = encode_units (s.info i).codepoint := by
  simp only [emitted, encode_step, Nat.add_sub_cancel_left]
  exact read_write_self _ _ _

/-- Claim C1. The Wide-Encoder emits, for a codepoint `c` below 0x10000, the single
unit `c`; for `c` in [0x10000, 0x110000) the two units `hi`, `lo` of the standard
surrogate bias, each in its range, which decode back to `c`; and for `c` at or above
0x110000 the single unit 0xFFFD. U+0041 gives [0x0041] and U+1F600 gives
[0xD83D, 0xDE00]. -/
theorem wide_encoder_units (s : EncState) (i : Nat) :
    ((s.info i).codepoint < 0x10000 → emitted s i = [(s.info i).codepoint]) ∧
    (0x10000 ≤ (s.info i).codepoint → (s.info i).codepoint < 0x110000 →
      ∃ hi lo, emitted s i = [hi, lo] ∧
        hi = 0xD800 + (((s.info i).codepoint - 0x10000) >>> 10) ∧
        0xD800 ≤ hi ∧ hi ≤ 0xDBFF ∧
        lo = 0xDC00 + (((s.info i).codepoint - 0x10000) &&& 0x3FF) ∧
        0xDC00 ≤ lo ∧ lo ≤ 0xDFFF ∧
        spec_decode_pair hi lo = (s.info i).codepoint) ∧
    (0x110000 ≤ (s.info i).codepoint → emitted s i = [0xFFFD]) ∧
    ((s.info i).codepoint = 0x41 → emitted s i = [0x0041]) ∧
    ((s.info i).codepoint = 0x1F600 → emitted s i = [0xD83D, 0xDE00]) := by
  rw [emitted_eq]
  generalize (s.info i).codepoint = c
  have h3FF : ∀ x : Nat, x &&& 0x3FF = x % 1024 := fun x => and3FF x
  refine ⟨?_, ?_, ?_, ?_, ?_⟩
  · intro h
    have : c % 65536 = c := Nat.mod_eq_of_lt (by omega)
    simp [encode_units, h, this]
  · intro h1 h2
    have n1 : ¬ c < 0x10000 := by omega
    have n2 : ¬ c ≥ 0x110000 := by omega
    refine ⟨0xD800 + ((c - 0x10000) >>> 10), 0xDC00 + ((c - 0x10000) &&& 0x3FF), ?_, rfl, ?_, ?_,
      rfl, ?_, ?_, ?_⟩
    · simp only [encode_units, n1, n2, if_false, and3FF, h3FF, shr10]
      have a : (0xD800 + (c - 0x10000) / 1024) % 65536 = 0xD800 + (c - 0x10000) / 1024 :=
        Nat.mod_eq_of_lt (by omega)
      have b : (0xDC00 + (c - 0x10000) % 1024) % 65536 = 0xDC00 + (c - 0x10000) % 1024 :=
        Nat.mod_eq_of_lt (by omega)
      rw [a, b]
    · omega
    · rw [shr10]; omega
    · omega
    · rw [h3FF]; omega
    · simp only [spec_decode_pair, h3FF, shr10, Nat.shiftLeft_eq]
      omega
  · intro h
    have n1 : ¬ c < 0x10000 := by omega
    simp [encode_units, n1, h]
  · intro h
    subst h
    decide
  · intro h
    subst h
    decide

/-- Claim C1 at U+0041, U+1F600 and 0x110000, one codepoint for each branch. -/
theorem wide_encoder_units_witness :
    emitted { info := fun _ => { codepoint := 0x41, mask := 0, cluster := 0, var1 := 0, var2 := 0 }
              pchars := fun _ => 0, chars_len := 0 } 0 = [0x0041] ∧
    emitted { info := fun _ => { codepoint := 0x1F600, mask := 0, cluster := 0, var1 := 0, var2 := 0 }
              pchars := fun _ => 0, chars_len := 0 } 0 = [0xD83D, 0xDE00] ∧
    (∃ hi lo,
      emitted { info := fun _ => { codepoint := 0x1F600, mask := 0, cluster := 0, var1 := 0, var2 := 0 }
                pchars := fun _ => 0, chars_len := 0 } 0 = [hi, lo] ∧
        hi = 0xD800 + ((0x1F600 - 0x10000) >>> 10) ∧ 0xD800 ≤ hi ∧ hi ≤ 0xDBFF ∧
        lo = 0xDC00 + ((0x1F600 - 0x10000) &&& 0x3FF) ∧ 0xDC00 ≤ lo ∧ lo ≤ 0xDFFF ∧
        spec_decode_pair hi lo = 0x1F600) ∧
    emitted { info := fun _ => { codepoint := 0x110000, mask := 0, cluster := 0, var1 := 0, var2 := 0 }
              pchars := fun _ => 0, chars_len := 0 } 0 = [0xFFFD] :=
  ⟨(wide_encoder_units _ 0).1 (by decide),
   (wide_encoder_units _ 0).2.2.2.2 rfl,
   (wide_encoder_units _ 0).2.1 (by decide) (by decide),
   (wide_encoder_units _ 0).2.2.1 (by decide)⟩

theorem wide_encode_succ (n : Nat) (info : Nat → hb_glyph_info_t) (pchars : Nat → Nat) :
    wide_encode (n + 1) info pchars = encode_step (wide_encode n info pchars) n := by
  simp [wide_encode, List.range_succ, List.foldl_append]

theorem spec_unit_count_pos (c : Nat) : 1 ≤ spec_unit_count c := by
  unfold spec_unit_count; split <;> omega

theorem spec_unit_count_le (c : Nat) : spec_unit_count c ≤ 2 := by
  unfold spec_unit_count; split <;> omega

theorem spec_units_before_mono (info : Nat → hb_glyph_info_t) (i j : Nat) (h : i ≤ j) :
    spec_units_before info i ≤ spec_units_before info j := by
  induction j with
  | zero =>
    have : i = 0 := by omega
    subst this; exact Nat.le_refl _
  | succ j ih =>
    by_cases hij : i = j + 1
    · subst hij; exact Nat.le_refl _
    · have := ih (by omega)
      simp only [spec_units_before]
      omega

theorem spec_units_before_strict (info : Nat → hb_glyph_info_t) (i j : Nat) (h : i < j) :
    spec_units_before info i < spec_units_before info j := by
  have h1 := spec_units_before_mono info (i + 1) j h
  have h2 := spec_unit_count_pos (info i).codepoint
  simp only [spec_units_before] at h1
  omega

theorem spec_units_before_bounds (info : Nat → hb_glyph_info_t) (n : Nat) :
    n ≤ spec_units_before info n ∧ spec_units_before info n ≤ 2 * n := by
  induction n with
  | zero => simp [spec_units_before]
  | succ n ih =>
    have h1 := spec_unit_count_pos (info n).codepoint
    have h2 := spec_unit_count_le (info n).codepoint
    simp only [spec_units_before]
    omega

/-- The state of the encoding loop after `n` iterations. -/
theorem wide_encode_inv (n : Nat) (info : Nat → hb_glyph_info_t) (pchars : Nat → Nat) :
    (wide_encode n info pchars).chars_len = spec_units_before info n ∧
    (∀ i, i < n → ((wide_encode n info pchars).info i).var1 = spec_units_before info i) ∧
    (∀ i, n ≤ i → (wide_encode n info pchars).info i = info i) ∧
    (∀ i, ((wide_encode n info pchars).info i).codepoint = (info i).codepoint ∧
      ((wide_encode n info pchars).info i).cluster = (info i).cluster ∧
      ((wide_encode n info pchars).info i).mask = (info i).mask ∧
      ((wide_encode n info pchars).info i).var2 = (info i).var2) ∧
    (∀ i, i < n → read (wide_encode n info pchars).pchars (spec_units_before info i)
      (spec_unit_count (info i).codepoint) = encode_units (info i).codepoint) ∧
    (∀ j, spec_units_before info n ≤ j → (wide_encode n info pchars).pchars j = pchars j) := by
  induction n with
  | zero =>
    refine ⟨rfl, ?_, ?_, ?_, ?_, ?_⟩
    · intro i hi; omega
    · intro i _; rfl
    · intro i; exact ⟨rfl, rfl, rfl, rfl⟩
    · intro i hi; omega
    · intro j _; rfl
  | succ n ih =>
    obtain ⟨h1, h2, h3, h4, h5, h6⟩ := ih
    rw [wide_encode_succ]
    have hc : ((wide_encode n info pchars).info n).codepoint = (info n).codepoint := (h4 n).1
    refine ⟨?_, ?_, ?_, ?_, ?_, ?_⟩
    · simp only [encode_step, spec_units_before, h1, hc, encode_units_length]
    · intro i hi
      by_cases hin : i = n
      · subst hin
        simp only [encode_step, upd_same, h1]
      · simp only [encode_step]
        rw [upd_other _ _ _ _ hin]
        exact h2 i (by omega)
    · intro i hi
      simp only [encode_step]
      rw [upd_other _ _ _ _ (by omega)]
      exact h3 i (by omega)
    · intro i
      by_cases hin : i = n
      · subst hin
        simp only [encode_step, upd_same]
        exact h4 i
      · simp only [encode_step]
        rw [upd_other _ _ _ _ hin]
        exact h4 i
    · intro i hi
      by_cases hin : i = n
      · subst hin
        simp only [encode_step, h1, hc]
        rw [← encode_units_length]
        exact read_write_self _ _ _
      · have hlt : i < n := by omega
        rw [← h5 i hlt]
        apply read_congr
        intro k hk
        simp only [encode_step, h1]
        apply write_below
        have := spec_units_before_mono info (i + 1) n hlt
        simp only [spec_units_before] at this
        omega
    · intro j hj
      simp only [spec_units_before] at hj
      simp only [encode_step, h1, hc]
      rw [write_beyond _ _ _ _ (by rw [encode_units_length]; omega)]
      exact h6 j (by omega)

/-- Claim C9. After the Wide-Encoder has run over `n` items, item `i` carries as
`utf16_index` the sum of the unit counts of the items before it, `chars_len` is the
sum of all unit counts and lies between `n` and `2 n`, the offsets increase
strictly, the units found at an item's offset are the encoding of its codepoint,
and codepoints and cluster ids are unchanged. -/
theorem wide_encoder_offsets (n : Nat) (info : Nat → hb_glyph_info_t) (pchars : Nat → Nat) :
    (∀ i, i < n → ((wide_encode n info pchars).info i).var1 = spec_units_before info i) ∧
    (wide_encode n info pchars).chars_len = spec_units_before info n ∧
    n ≤ (wide_encode n info pchars).chars_len ∧
    (wide_encode n info pchars).chars_len ≤ 2 * n ∧
    (∀ i j, i < j → j < n →
      ((wide_encode n info pchars).info i).var1 < ((wide_encode n info pchars).info j).var1) ∧
    (∀ i, i < n →
      read (wide_encode n info pchars).pchars ((wide_encode n info pchars).info i).var1
        (spec_unit_count (info i).codepoint) = encode_units (info i).codepoint ∧
      ((wide_encode n info pchars).info i).var1 + spec_unit_count (info i).codepoint
        ≤ (wide_encode n info pchars).chars_len) ∧
    (∀ i, ((wide_encode n info pchars).info i).codepoint = (info i).codepoint ∧
      ((wide_encode n info pchars).info i).cluster = (info i).cluster) := by
  obtain ⟨h1, h2, _, h4, h5, _⟩ := wide_encode_inv n info pchars
  have hb := spec_units_before_bounds info n
  refine ⟨h2, h1, ?_, ?_, ?_, ?_, ?_⟩
  · rw [h1]; exact hb.1
  · rw [h1]; exact hb.2
  · intro i j hij hj
    rw [h2 i (by omega), h2 j hj]
    exact spec_units_before_strict info i j hij
  · intro i hi
    rw [h2 i hi, h1]
    refine ⟨h5 i hi, ?_⟩
    have := spec_units_before_mono info (i + 1) n hi
    simp only [spec_units_before] at this
    exact this
  · intro i
    exact ⟨(h4 i).1, (h4 i).2.1⟩

/-! ## Scratch Partitioner -/

/-- When the three per-unit arrays fit, the byte count left after carving them and
the glyph-slot count are the exact differences and quotients. -/
theorem partition_glyphs_size (S n : Nat) (hS : S < 2 ^ 32) (hfit : n * 6 ≤ S) :
    (partition S n).glyphs_size = (S - n * 6) / 22 := by
  simp only [partition, ALLOCATE_ARRAY, sizeof_WCHAR, sizeof_WORD, sizeof_SCRIPT_CHARPROP,
    sizeof_SCRIPT_GLYPHPROP, sizeof_int, sizeof_GOFFSET, sizeof_uint32_t]
  norm_num at hS ⊢
  omega

theorem partition_starts (S n : Nat) :
    (partition S n).wchars = 0 ∧
    (partition S n).log_clusters = n * 2 ∧
    (partition S n).char_props = n * 4 ∧
    (partition S n).glyphs = n * 6 ∧
    (partition S n).glyph_props = n * 6 + (partition S n).glyphs_size * 2 ∧
    (partition S n).advances = n * 6 + (partition S n).glyphs_size * 6 ∧
    (partition S n).offsets = n * 6 + (partition S n).glyphs_size * 10 ∧
    (partition S n).vis_clusters = n * 6 + (partition S n).glyphs_size * 18 := by
  simp only [partition, ALLOCATE_ARRAY, sizeof_WCHAR, sizeof_WORD, sizeof_SCRIPT_CHARPROP,
    sizeof_SCRIPT_GLYPHPROP, sizeof_int, sizeof_GOFFSET, sizeof_uint32_t]
  refine ⟨trivial, ?_, ?_, ?_, ?_, ?_, ?_, ?_⟩ <;> omega

/-- Claim C10, as stated, fails: with 20 bytes of scratch and 4 encoded units the
`unsigned int` byte count wraps, the glyph-slot count becomes 195225786, and the
regions do not lie within the 20 bytes. -/
theorem scratch_partition_overrun :
    (partition 20 4).glyphs_size = 195225786 ∧
    ¬ (4 * (2 + 2 + 2) + (partition 20 4).glyphs_size * (2 + 4 + 4 + 8 + 4) ≤ 20) ∧
    ¬ (∀ r, r ∈ (partition 20 4).regions 4 → range_within 20 r) := by
  have h : (partition 20 4).glyphs_size = 195225786 := by
    simp only [partition, ALLOCATE_ARRAY, sizeof_WCHAR, sizeof_WORD, sizeof_SCRIPT_CHARPROP,
      sizeof_SCRIPT_GLYPHPROP, sizeof_int, sizeof_GOFFSET, sizeof_uint32_t]
    norm_num
  refine ⟨h, ?_, ?_⟩
  · rw [h]; omega
  · intro hall
    have := hall ((partition 20 4).glyphs, (partition 20 4).glyphs_size * sizeof_WORD)
      (by simp [Partition.regions])
    simp only [range_within, h, (partition_starts 20 4).2.2.2.1, sizeof_WORD] at this
    omega

/-- Claim C10, amended. For a scratch capacity `S` below `2 ^ 32` and an encoded
length `n` whose three per-unit arrays fit (`n * 6 ≤ S`), the eight regions carved
in order lie within `[0, S)` and are pairwise disjoint, that is
`n * (2+2+2) + glyphs_size * (2+4+4+8+4) ≤ S`, and the encoded units written at the
start of the scratch region lie within `[0, S)` as well. -/
theorem scratch_partition_within (S n : Nat) (hS : S < 2 ^ 32) (hfit : n * 6 ≤ S) :
    n * (2 + 2 + 2) + (partition S n).glyphs_size * (2 + 4 + 4 + 8 + 4) ≤ S ∧
    (∀ r, r ∈ (partition S n).regions n → range_within S r) ∧
    List.Pairwise disjoint_ranges ((partition S n).regions n) ∧
    range_within S ((partition S n).wchars, n * sizeof_WCHAR) := by
  have hg := partition_glyphs_size S n hS hfit
  obtain ⟨s0, s1, s2, s3, s4, s5, s6, s7⟩ := partition_starts S n
  have hle : (partition S n).glyphs_size * 22 ≤ S - n * 6 := by
    rw [hg]; exact Nat.div_mul_le_self _ _
  refine ⟨by omega, ?_, ?_, ?_⟩
  · intro r hr
    simp only [Partition.regions, List.mem_cons, List.mem_singleton, List.mem_nil_iff,
      or_false] at hr
    simp only [sizeof_WCHAR, sizeof_WORD, sizeof_SCRIPT_CHARPROP, sizeof_SCRIPT_GLYPHPROP,
      sizeof_int, sizeof_GOFFSET, sizeof_uint32_t, s0, s1, s2, s3, s4, s5, s6, s7] at hr
    rcases hr with h | h | h | h | h | h | h | h <;> subst h <;>
      simp only [range_within] <;> omega
  · simp only [Partition.regions, List.pairwise_cons, List.mem_cons, List.mem_singleton,
      List.mem_nil_iff, or_false, List.Pairwise.nil, and_true, forall_eq_or_imp, forall_eq,
      disjoint_ranges, sizeof_WCHAR, sizeof_WORD, sizeof_SCRIPT_CHARPROP,
      sizeof_SCRIPT_GLYPHPROP, sizeof_int, sizeof_GOFFSET, sizeof_uint32_t, s0, s1, s2, s3, s4,
      s5, s6, s7, IsEmpty.forall_iff, implies_true]
    omega
  · simp only [range_within, s0, sizeof_WCHAR]
    omega

/-- Claim C10, amended, at 100 bytes of scratch and 3 encoded units. -/
theorem scratch_partition_within_witness :
    (100 < 2 ^ 32 ∧ 3 * 6 ≤ 100) ∧
    (3 * (2 + 2 + 2) + (partition 100 3).glyphs_size * (2 + 4 + 4 + 8 + 4) ≤ 100 ∧
    (∀ r, r ∈ (partition 100 3).regions 3 → range_within 100 r) ∧
    List.Pairwise disjoint_ranges ((partition 100 3).regions 3) ∧
    range_within 100 ((partition 100 3).wchars, 3 * sizeof_WCHAR)) :=
  ⟨⟨by decide, by decide⟩, scratch_partition_within 100 3 (by decide) (by decide)⟩

/-! ## Cluster Remapper -/

theorem calc_vis_pass1_succ (n : Nat) (info : Nat → hb_glyph_info_t) (log : Nat → Nat)
    (vis : Nat → Nat) :
    calc_vis_pass1 (n + 1) info log vis =
      upd (calc_vis_pass1 n info log vis) (log (info n).var1) (info n).cluster := by
  simp [calc_vis_pass1, List.range_succ, List.foldl_append]

/-- The first pass leaves in a slot the cluster of the last item that points to it,
and the old content where no item points to it. -/
theorem calc_vis_pass1_spec (n : Nat) (info : Nat → hb_glyph_info_t) (log : Nat → Nat)
    (vis : Nat → Nat) (g : Nat) :
    (∀ k, k < n → log (info k).var1 = g →
      (∀ j, k < j → j < n → log (info j).var1 ≠ g) →
      calc_vis_pass1 n info log vis g = (info k).cluster) ∧
    ((∀ j, j < n → log (info j).var1 ≠ g) → calc_vis_pass1 n info log vis g = vis g) := by
  induction n with
  | zero =>
    refine ⟨?_, ?_⟩
    · intro k hk; omega
    · intro _; rfl
  | succ n ih =>
    obtain ⟨ih1, ih2⟩ := ih
    rw [calc_vis_pass1_succ]
    refine ⟨?_, ?_⟩
    · intro k hk hkg hlast
      by_cases hkn : k = n
      · subst hkn
        rw [← hkg, upd_same]
      · have hn : log (info n).var1 ≠ g := hlast n (by omega) (by omega)
        rw [upd_other _ _ _ _ (fun h => hn h.symm)]
        exact ih1 k (by omega) hkg (fun j h1 h2 => hlast j h1 (by omega))
    · intro hnone
      have hn : log (info n).var1 ≠ g := hnone n (by omega)
      rw [upd_other _ _ _ _ (fun h => hn h.symm)]
      exact ih2 (fun j hj => hnone j (by omega))

/-- The second pass after `k` iterations, that is after the indices `1 .. k`. -/
theorem calc_vis_pass2_inv (k : Nat) (gp : Nat → SCRIPT_GLYPHPROP) (vis : Nat → Nat) :
    (∀ i, 0 < i → i ≤ k → (gp i).fClusterStart = false →
      calc_vis_pass2 (k + 1) gp vis i = calc_vis_pass2 (k + 1) gp vis (i - 1)) ∧
    (∀ i, 0 < i → i ≤ k → (gp i).fClusterStart = true →
      calc_vis_pass2 (k + 1) gp vis i = vis i) ∧
    (∀ i, k < i → calc_vis_pass2 (k + 1) gp vis i = vis i) ∧
    calc_vis_pass2 (k + 1) gp vis 0 = vis 0 := by
  induction k with
  | zero =>
    refine ⟨?_, ?_, ?_, ?_⟩
    · intro i h1 h2; omega
    · intro i h1 h2; omega
    · intro i _; rfl
    · rfl
  | succ k ih =>
    obtain ⟨h1, h2, h3, h4⟩ := ih
    have hstep : calc_vis_pass2 (k + 1 + 1) gp vis =
        (if !(gp (k + 1)).fClusterStart then
          upd (calc_vis_pass2 (k + 1) gp vis) (k + 1) (calc_vis_pass2 (k + 1) gp vis (k + 1 - 1))
         else calc_vis_pass2 (k + 1) gp vis) := by
      have e : (1 + 1 * k) = k + 1 := by omega
      simp only [calc_vis_pass2, Nat.add_sub_cancel, List.range'_concat, List.foldl_append,
        List.foldl_cons, List.foldl_nil, e]
    rw [hstep]
    cases hs : (gp (k + 1)).fClusterStart with
    | true =>
      simp only [Bool.not_true, Bool.false_eq_true, if_false]
      refine ⟨?_, ?_, ?_, h4⟩
      · intro i hi1 hi2 hf
        by_cases hik : i = k + 1
        · subst hik; rw [hs] at hf; cases hf
        · exact h1 i hi1 (by omega) hf
      · intro i hi1 hi2 ht
        by_cases hik : i = k + 1
        · subst hik; exact h3 _ (by omega)
        · exact h2 i hi1 (by omega) ht
      · intro i hi; exact h3 i (by omega)
    | false =>
      simp only [Bool.not_false, if_true]
      refine ⟨?_, ?_, ?_, ?_⟩
      · intro i hi1 hi2 hf
        by_cases hik : i = k + 1
        · subst hik
          rw [upd_same, upd_other _ _ _ _ (by omega)]
        · rw [upd_other _ _ _ _ hik, upd_other _ _ _ _ (by omega)]
          exact h1 i hi1 (by omega) hf
      · intro i hi1 hi2 ht
        by_cases hik : i = k + 1
        · subst hik; rw [hs] at ht; cases ht
        · rw [upd_other _ _ _ _ hik]
          exact h2 i hi1 (by omega) ht
      · intro i hi
        rw [upd_other _ _ _ _ (by omega)]
        exact h3 i (by omega)
      · rw [upd_other _ _ _ _ (by omega)]
        exact h4

theorem calc_vis_pass2_zero (gp : Nat → SCRIPT_GLYPHPROP) (vis : Nat → Nat) :
    calc_vis_pass2 0 gp vis = vis := rfl

/-- What the second pass does to each slot, for any glyph count `G`. -/
theorem calc_vis_pass2_spec (G : Nat) (gp : Nat → SCRIPT_GLYPHPROP) (vis : Nat → Nat) :
    (∀ i, 0 < i → i < G → (gp i).fClusterStart = false →
      calc_vis_pass2 G gp vis i = calc_vis_pass2 G gp vis (i - 1)) ∧
    (∀ i, 0 < i → i < G → (gp i).fClusterStart = true → calc_vis_pass2 G gp vis i = vis i) ∧
    (∀ i, G ≤ i → calc_vis_pass2 G gp vis i = vis i) ∧
    calc_vis_pass2 G gp vis 0 = vis 0 := by
  cases G with
  | zero =>
    refine ⟨?_, ?_, ?_, rfl⟩
    · intro i h1 h2; omega
    · intro i h1 h2; omega
    · intro i _; rfl
  | succ k =>
    obtain ⟨h1, h2, h3, h4⟩ := calc_vis_pass2_inv k gp vis
    exact ⟨fun i a b c => h1 i a (by omega) c, fun i a b c => h2 i a (by omega) c,
      fun i a => h3 i (by omega), h4⟩

/-- A stretch of glyphs without a cluster start carries the value found at the glyph
slot before the stretch. -/
theorem calc_vis_pass2_stretch (G : Nat) (gp : Nat → SCRIPT_GLYPHPROP) (vis : Nat → Nat)
    (g k : Nat) (hk : g + k < G)
    (hno : ∀ j, g < j → j ≤ g + k → (gp j).fClusterStart = false) :
    calc_vis_pass2 G gp vis (g + k) = calc_vis_pass2 G gp vis g := by
  induction k with
  | zero => rfl
  | succ k ih =>
    have h := (calc_vis_pass2_spec G gp vis).1 (g + (k + 1)) (by omega) hk
      (hno _ (by omega) (Nat.le_refl _))
    rw [h]
    have : g + (k + 1) - 1 = g + k := by omega
    rw [this]
    exact ih (by omega) (fun j a b => hno j a (by omega))

/-- Claim C8. Whatever the logical-cluster, cluster-start and visual-cluster arrays
hold and whatever the glyph count `G` is, after both remapping passes every glyph
slot `i` with `0 < i < G` that is not a cluster start has the visual cluster of slot
`i - 1`; hence a stretch of glyphs `g+1 .. g+k` without a cluster start carries the
visual cluster of glyph `g`. -/
theorem cluster_propagation (len : Nat) (info : Nat → hb_glyph_info_t) (log : Nat → Nat)
    (G : Nat) (gp : Nat → SCRIPT_GLYPHPROP) (vis : Nat → Nat) :
    (∀ i, 0 < i → i < G → (gp i).fClusterStart = false →
      calc_vis_clusters len info log G gp vis i =
        calc_vis_clusters len info log G gp vis (i - 1)) ∧
    (∀ g k, g + k < G → (∀ j, g < j → j ≤ g + k → (gp j).fClusterStart = false) →
      calc_vis_clusters len info log G gp vis (g + k) =
        calc_vis_clusters len info log G gp vis g) :=
  ⟨(calc_vis_pass2_spec G gp _).1, fun g k hk hno => calc_vis_pass2_stretch G gp _ g k hk hno⟩

/-- Claim C8 on three glyphs of which only the first starts a cluster. -/
theorem cluster_propagation_witness :
    calc_vis_clusters 2 merged_info (array_of [0, 0]) 3 (props_of [true, false, false])
        (array_of [7, 8, 9]) 1 =
      calc_vis_clusters 2 merged_info (array_of [0, 0]) 3 (props_of [true, false, false])
        (array_of [7, 8, 9]) (1 - 1) ∧
    calc_vis_clusters 2 merged_info (array_of [0, 0]) 3 (props_of [true, false, false])
        (array_of [7, 8, 9]) (0 + 2) =
      calc_vis_clusters 2 merged_info (array_of [0, 0]) 3 (props_of [true, false, false])
        (array_of [7, 8, 9]) 0 :=
  ⟨(cluster_propagation 2 merged_info (array_of [0, 0]) 3 (props_of [true, false, false])
      (array_of [7, 8, 9])).1 1 (by decide) (by decide) (by decide),
   (cluster_propagation 2 merged_info (array_of [0, 0]) 3 (props_of [true, false, false])
      (array_of [7, 8, 9])).2 0 2 (by decide) (by
        intro j h1 h2
        have : j = 1 ∨ j = 2 := by omega
        rcases this with h | h <;> subst h <;> rfl)⟩

/-- Claim C4, as stated, fails. Items 0 and 1 (clusters 0 and 1) both point to
glyph slot 0, and after remapping slot 0 holds 1, the cluster of the second item,
not 0, the cluster of the first. And when the slot pointed to is not a cluster
start, the second pass replaces its value: items 1 and 2 (clusters 1 and 2) both
point to slot 1, which ends with 0, the cluster neither of them has. -/
theorem merged_cluster_not_first :
    (array_of [0, 0] (merged_info 0).var1 = 0 ∧ array_of [0, 0] (merged_info 1).var1 = 0 ∧
      (merged_info 0).cluster = 0 ∧
      calc_vis_clusters 2 merged_info (array_of [0, 0]) 1 (props_of [true]) (array_of []) 0
        = 1) ∧
    (array_of [0, 1, 1] (three_info 1).var1 = 1 ∧ array_of [0, 1, 1] (three_info 2).var1 = 1 ∧
      (three_info 1).cluster = 1 ∧
      calc_vis_clusters 3 three_info (array_of [0, 1, 1]) 2 (props_of [true, false])
        (array_of []) 1 = 0) := by
  decide

/-- Claim C4, amended. When item `k` is the last item in buffer order whose
logical-cluster slot, looked up at its `utf16_index`, points to glyph slot `g`, and
`g` is slot 0 or a cluster start, then after remapping the visual cluster at `g` is
the cluster id of item `k`, and every following glyph up to the next cluster start
carries that same cluster id. -/
theorem merged_cluster_last (len : Nat) (info : Nat → hb_glyph_info_t) (log : Nat → Nat)
    (G : Nat) (gp : Nat → SCRIPT_GLYPHPROP) (vis : Nat → Nat) (g k : Nat)
    (hk : k < len) (hkg : log (info k).var1 = g)
    (hlast : ∀ j, k < j → j < len → log (info j).var1 ≠ g)
    (hg : g = 0 ∨ (gp g).fClusterStart = true) :
    calc_vis_clusters len info log G gp vis g = (info k).cluster ∧
    (∀ m, g + m < G → (∀ j, g < j → j ≤ g + m → (gp j).fClusterStart = false) →
      calc_vis_clusters len info log G gp vis (g + m) = (info k).cluster) := by
  have h1 := (calc_vis_pass1_spec len info log vis g).1 k hk hkg hlast
  obtain ⟨_, p2, p3, p4⟩ := calc_vis_pass2_spec G gp (calc_vis_pass1 len info log vis)
  have hgv : calc_vis_clusters len info log G gp vis g = (info k).cluster := by
    unfold calc_vis_clusters
    rcases hg with h0 | hs
    · subst h0; rw [p4]; exact h1
    · by_cases hG : g < G
      · by_cases h0 : g = 0
        · subst h0; rw [p4]; exact h1
        · rw [p2 g (by omega) hG hs]; exact h1
      · rw [p3 g (by omega)]; exact h1
  refine ⟨hgv, ?_⟩
  intro m hm hno
  rw [← hgv]
  exact calc_vis_pass2_stretch G gp _ g m hm hno

/-- Claim C4, amended, on two items merged into glyph 0, followed by a second glyph
of the same cluster. -/
theorem merged_cluster_last_witness :
    calc_vis_clusters 2 merged_info (array_of [0, 0]) 2 (props_of [true, false]) (array_of []) 0
      = (merged_info 1).cluster ∧
    calc_vis_clusters 2 merged_info (array_of [0, 0]) 2 (props_of [true, false]) (array_of [])
      (0 + 1) = (merged_info 1).cluster :=
  ⟨(merged_cluster_last 2 merged_info (array_of [0, 0]) 2 (props_of [true, false]) (array_of [])
      0 1 (by decide) (by decide) (fun j h1 h2 => by omega) (Or.inl rfl)).1,
   (merged_cluster_last 2 merged_info (array_of [0, 0]) 2 (props_of [true, false]) (array_of [])
      0 1 (by decide) (by decide) (fun j h1 h2 => by omega) (Or.inl rfl)).2 1 (by decide)
      (by
        intro j h1 h2
        have : j = 1 := by omega
        subst this; rfl)⟩

/-- Claim C9 on U+0041 followed by U+1F600. -/
theorem wide_encoder_offsets_witness :
    ((wide_encode 2 letter_and_face (array_of [])).info 1).var1 = 1 ∧
    ((wide_encode 2 letter_and_face (array_of [])).info 0).var1 <
      ((wide_encode 2 letter_and_face (array_of [])).info 1).var1 ∧
    read (wide_encode 2 letter_and_face (array_of [])).pchars
      ((wide_encode 2 letter_and_face (array_of [])).info 1).var1 2 = [0xD83D, 0xDE00] ∧
    (wide_encode 2 letter_and_face (array_of [])).chars_len = 3 :=
  ⟨(wide_encoder_offsets 2 letter_and_face (array_of [])).1 1 (by decide),
   (wide_encoder_offsets 2 letter_and_face (array_of [])).2.2.2.2.1 0 1 (by decide) (by decide),
   ((wide_encoder_offsets 2 letter_and_face (array_of [])).2.2.2.2.2.1 1 (by decide)).1,
   (wide_encoder_offsets 2 letter_and_face (array_of [])).2.1⟩

/-! ## Control flow -/

/-- When every pass through the body that starts from a buffer satisfying `I` leaves
by `goto fallback` with a buffer satisfying `I` again, control never reaches
`return`. -/
theorem exec_never_done (env : Env) (I : hb_buffer_t → Prop)
    (hI : ∀ b, I b → (attempt env b).outcome = Outcome.fallback ∧ I (attempt env b).buffer)
    (n : Nat) (m : Machine) (hpc : m.pc ≠ PC.done) (hb : I m.buffer) :
    (exec env n m).pc ≠ PC.done := by
  induction n generalizing m with
  | zero => exact hpc
  | succ n ih =>
    simp only [exec]
    apply ih
    · cases hm : m.pc with
      | entry =>
        simp only [step, hm]
        split <;> simp
      | fallback => simp [step, hm]
      | retry =>
        simp only [step, hm, (hI _ hb).1]
        simp
      | done => exact absurd hm hpc
    · cases hm : m.pc with
      | entry =>
        simp only [step, hm]
        split <;> exact hb
      | fallback => simp only [step, hm, fallback_shape]; exact hb
      | retry => simp only [step, hm]; exact (hI _ hb).2
      | done => exact absurd hm hpc

theorem attempt_empty (b : hb_buffer_t) (h : b.len = 0) :
    (attempt env_plain b).outcome = Outcome.fallback ∧ (attempt env_plain b).buffer.len = 0 := by
  simp [attempt, shape_encoded, h, wide_encode, read, env_plain, itemize_one_run, FAILED]

theorem attempt_exhausted (b : hb_buffer_t) (h : b.allocated = 1) :
    (attempt env_exhausted b).outcome = Outcome.fallback ∧
      (attempt env_exhausted b).buffer.allocated = 1 := by
  simp only [attempt, shape_encoded, env_exhausted, env_plain, itemize_one_run]
  split
  · simp [FAILED, h]
  · simp [FAILED, after_loop, shape_loop, shape_run, shape_exhausted, List.range_succ, ensure, h]

/-- Claim C5 fails on the code. On an empty buffer the call runs `fallback_shape`
and then, instead of returning, goes on into the body: after three moves the
itemizer has been called on the empty text and control is back at `fallback:`; with
an itemizer that rejects the empty text the call never returns. -/
theorem fallback_falls_through :
    (exec env_plain 3 (start (buffer_of [] 4))).trace =
      [Event.fallback_shape, Event.ScriptItemizeOpenType 0] ∧
    (exec env_plain 3 (start (buffer_of [] 4))).pc = PC.fallback ∧
    ∀ fuel, hb_uniscribe_shape env_plain fuel (buffer_of [] 4) = none := by
  refine ⟨by decide, by decide, ?_⟩
  intro fuel
  have h := exec_never_done env_plain (fun b => b.len = 0) attempt_empty fuel
    (start (buffer_of [] 4)) (by decide) rfl
  simp only [hb_uniscribe_shape, h, if_false]

/-- Claim C6 fails on the code. With a Shape operation that reports `E_OUTOFMEMORY`
and a growth primitive that fails, the call on the one-item buffer U+0041 never
returns, whatever the number of moves: `FALLBACK` leads to `fallback:`, from which
control falls through to `retry:` and the same cycle starts again. The trace of the
first nine moves shows the cycle three times. -/
theorem retry_cycle_never_returns :
    (∀ fuel, hb_uniscribe_shape env_exhausted fuel (buffer_of [item 0x41 0] 1) = none) ∧
    (exec env_exhausted 6 (start (buffer_of [item 0x41 0] 1))).trace =
      [Event.ScriptItemizeOpenType 1, Event.AddFontMemResourceEx, Event.ScriptShapeOpenType 0,
       Event.ensure 2, Event.fallback_shape,
       Event.ScriptItemizeOpenType 1, Event.AddFontMemResourceEx, Event.ScriptShapeOpenType 0,
       Event.ensure 2, Event.fallback_shape,
       Event.ScriptItemizeOpenType 1, Event.AddFontMemResourceEx, Event.ScriptShapeOpenType 0,
       Event.ensure 2] := by
  refine ⟨?_, by decide⟩
  intro fuel
  have h := exec_never_done env_exhausted (fun b => b.allocated = 1) attempt_exhausted fuel
    (start (buffer_of [item 0x41 0] 1)) (by decide) rfl
  simp only [hb_uniscribe_shape, h, if_false]

/-- Claim C2 fails on the code. The two items U+0066, U+0069 are shaped into the
single ligature glyph 500, so the glyph count is 1; the call returns with glyph 500
in item 0, but the buffer's length is still 2 and item 1 still is the input item
U+0069. -/
theorem output_length_not_updated :
    (shape_ligature [0x66, 0x69] 1).glyphs_len = 1 ∧
    (hb_uniscribe_shape env_ligature 2 (buffer_of [item 0x66 0, item 0x69 1] 2)).map
      (fun b => (b.len, glyph_at b 0, (b.info 1).codepoint))
      = some (2, (500, 1, 600, 0, 0), 0x69) :=
  ⟨rfl, rfl⟩

/-- Claim C3 fails on the code. U+0041 (cluster 0) and U+0042 (cluster 1) form two
runs of one glyph each, and Shape reports for each run the run-local logical
cluster 0. The remapper uses both values as indices into the whole glyph array:
glyph 0, produced by the first run, ends with cluster 1, the cluster of the item of
the second run, and glyph 1 ends with 88, the stale content of its visual-cluster
slot, which is the cluster of no item. -/
theorem run_local_clusters_used_globally :
    (hb_uniscribe_shape env_two_runs 2 (buffer_of [item 0x41 0, item 0x42 1] 4)).map
      (fun b => (glyph_at b 0, glyph_at b 1))
      = some ((0x41, 1, 600, 0, 0), (0x42, 88, 600, 0, 0)) :=
  rfl

/-! ## Retry -/

end Uniscribe
